import Mathlib

/-!
Shallow embedding of the Couples-Therapy memory-game server core:
the game-state data model, the two `applyMove` variants found in the
sources (a silent-ignore variant paired with `unlockBoardAfterNoMatch`,
and an error-returning variant paired with `unlockBoard`), the deck
factory `createGameState`, the Fisher-Yates `shuffle`, the two
state sanitizers, the input validators, and the session registry.
Randomness and id generation are external in the source (Math.random,
nanoid), so they enter the embedding as explicit oracle parameters.
-/

/-- A card: opaque id, pairable symbol value, matched flag. -/
structure Card where
  id : String
  value : String
  isMatched : Bool
deriving DecidableEq, Repr

/-- A player: opaque id, palette color, score. -/
structure Player where
  id : String
  color : String
  score : Nat
deriving DecidableEq, Repr

/-- Authoritative per-session game state. -/
structure GameState where
  gameId : String
  cards : List Card
  players : List Player
  activePlayerIndex : Nat
  flippedCardIds : List String
  lockBoard : Bool
  status : String
deriving DecidableEq, Repr

/-- Result object of a move: the JS functions return loosely shaped
objects; absent fields are `none` (`ignored` is present-as-true). -/
structure MoveResult where
  ignored : Bool
  error : Option String
  gameState : Option GameState
  needsDelayAction : Option Bool
  delayMs : Option Nat
deriving DecidableEq, Repr

def DEFAULT_REVEAL_DELAY_MS : Nat := 800

/-- `players.map((player, index) => ...)` with the index argument. -/
def mapWithIndex (f : Nat → α → β) : Nat → List α → List β
  | _, [] => []
  | i, a :: t => f i a :: mapWithIndex f (i + 1) t

/-- `applyMove` — silent-ignore variant (illegal moves return
`{ignored: true, gameState}` unchanged; on a mismatch the active player
is kept and the caller must schedule the delayed unlock). -/
def applyMove (gameState : GameState) (cardId : String)
    (revealDelayMs : Nat) : MoveResult :=
  if gameState.status ≠ "playing" then
    ⟨true, none, some gameState, none, none⟩
  else if gameState.lockBoard then
    ⟨true, none, some gameState, none, none⟩
  else
    match gameState.cards.find? (fun card => card.id == cardId) with
    | none => ⟨true, none, some gameState, none, none⟩
    | some clickedCard =>
      if clickedCard.isMatched then
        ⟨true, none, some gameState, none, none⟩
      else if gameState.flippedCardIds.contains cardId then
        ⟨true, none, some gameState, none, none⟩
      else if 2 ≤ gameState.flippedCardIds.length then
        ⟨true, none, some gameState, none, none⟩
      else
        let updatedFlippedCardIds := gameState.flippedCardIds ++ [cardId]
        if updatedFlippedCardIds.length = 1 then
          ⟨false, none,
            some { gameState with flippedCardIds := updatedFlippedCardIds },
            some false, none⟩
        else
          let firstId := updatedFlippedCardIds.getD 0 ""
          let secondId := updatedFlippedCardIds.getD 1 ""
          match gameState.cards.find? (fun card => card.id == firstId),
                gameState.cards.find? (fun card => card.id == secondId) with
          | some firstCard, some secondCard =>
            if firstCard.value = secondCard.value then
              let updatedCards := gameState.cards.map (fun card =>
                if card.id == firstId || card.id == secondId then
                  { card with isMatched := true }
                else card)
              let updatedPlayers := mapWithIndex (fun index player =>
                if index = gameState.activePlayerIndex then
                  { player with score := player.score + 1 }
                else player) 0 gameState.players
              let allMatched := updatedCards.all (fun card => card.isMatched)
              let newStatus := if allMatched then "won" else "playing"
              ⟨false, none,
                some { gameState with
                        cards := updatedCards,
                        players := updatedPlayers,
                        flippedCardIds := [],
                        lockBoard := false,
                        status := newStatus },
                some false, none⟩
            else
              ⟨false, none,
                some { gameState with
                        flippedCardIds := updatedFlippedCardIds,
                        lockBoard := true },
                some true, some revealDelayMs⟩
          | _, _ =>
            ⟨false, none,
              some { gameState with flippedCardIds := [], lockBoard := false },
              some false, none⟩

/-- `unlockBoardAfterNoMatch` — companion of the silent-ignore variant:
clears the flips, unlocks and rotates the turn. -/
def unlockBoardAfterNoMatch (gameState : GameState) : GameState :=
  { gameState with
      flippedCardIds := [],
      lockBoard := false,
      activePlayerIndex :=
        (gameState.activePlayerIndex + 1) % gameState.players.length }

/-- `applyMove` — error-returning variant: illegal moves return
`{error}`; the lock-board check is commented out in the source; on a
mismatch the turn is advanced immediately; the internal-error branch
returns an error together with a state whose flips are cleared. -/
def applyMoveE (gameState : GameState) (cardId : String)
    (revealDelayMs : Nat) : MoveResult :=
  if gameState.status ≠ "playing" then
    ⟨false, some "Game is not active.", none, none, none⟩
  else
    match gameState.cards.find? (fun card => card.id == cardId) with
    | none => ⟨false, some "Invalid cardId.", none, none, none⟩
    | some clickedCard =>
      if clickedCard.isMatched then
        ⟨false, some "Card is already matched.", none, none, none⟩
      else if gameState.flippedCardIds.contains cardId then
        ⟨false, some "Card is already flipped.", none, none, none⟩
      else if 2 ≤ gameState.flippedCardIds.length then
        ⟨false, some "You can only flip two cards.", none, none, none⟩
      else
        let updatedFlippedCardIds := gameState.flippedCardIds ++ [cardId]
        if updatedFlippedCardIds.length = 1 then
          ⟨false, none,
            some { gameState with flippedCardIds := updatedFlippedCardIds },
            some false, none⟩
        else
          let firstId := updatedFlippedCardIds.getD 0 ""
          let secondId := updatedFlippedCardIds.getD 1 ""
          match gameState.cards.find? (fun card => card.id == firstId),
                gameState.cards.find? (fun card => card.id == secondId) with
          | some firstCard, some secondCard =>
            if firstCard.value = secondCard.value then
              let updatedCards := gameState.cards.map (fun card =>
                if card.id == firstId || card.id == secondId then
                  { card with isMatched := true }
                else card)
              let updatedPlayers := mapWithIndex (fun index player =>
                if index = gameState.activePlayerIndex then
                  { player with score := player.score + 1 }
                else player) 0 gameState.players
              let allMatched := updatedCards.all (fun card => card.isMatched)
              let newStatus := if allMatched then "won" else "playing"
              ⟨false, none,
                some { gameState with
                        cards := updatedCards,
                        players := updatedPlayers,
                        flippedCardIds := [],
                        lockBoard := false,
                        status := newStatus },
                some false, none⟩
            else
              let nextPlayerIndex :=
                (gameState.activePlayerIndex + 1) % gameState.players.length
              ⟨false, none,
                some { gameState with
                        flippedCardIds := updatedFlippedCardIds,
                        lockBoard := true,
                        activePlayerIndex := nextPlayerIndex },
                some true, some revealDelayMs⟩
          | _, _ =>
            ⟨false, some "Internal error: flipped cards not found.",
              some { gameState with flippedCardIds := [] }, none, none⟩

/-- `unlockBoard` — companion of the error-returning variant: clears the
flips and unlocks without rotating the turn. -/
def unlockBoard (gameState : GameState) : GameState :=
  { gameState with flippedCardIds := [], lockBoard := false }

/-- Swap the entries at positions `i` and `j`; out-of-range indices
leave the list unchanged. -/
def listSwap (l : List α) (i j : Nat) : List α :=
  match l.get? i, l.get? j with
  | some a, some b => (l.set i b).set j a
  | _, _ => l

/-- The Fisher-Yates loop `for (i = n-1; i > 0; i--)`; the random draw
`Math.floor(Math.random() * (i + 1))` is supplied by the oracle `rand`,
reduced modulo `i + 1` so it lies in `[0, i]` as in the source. -/
def fyLoop (rand : Nat → Nat) : Nat → List α → List α
  | 0, l => l
  | i + 1, l => fyLoop rand i (listSwap l (i + 1) (rand (i + 1) % (i + 2)))

/-- `shuffle` — copies the array, then runs Fisher-Yates from the last
index down to 1. -/
def shuffle (rand : Nat → Nat) (array : List α) : List α :=
  fyLoop rand (array.length - 1) array

/-- Player colors palette, in assignment order. -/
def colors : List String := ["red", "yellow", "blue", "green"]

/-- Card values: A-H, 8 pairs, 16 cards. -/
def cardValues : List String := ["A", "B", "C", "D", "E", "F", "G", "H"]

/-- `cardValues.forEach(value => push two cards)` — two cards per
value, fresh ids drawn in sequence from the supply starting at `base`. -/
def buildCards (ids : Nat → String) (base : Nat) : List String → List Card
  | [] => []
  | v :: rest =>
    { id := ids base, value := v, isMatched := false } ::
    { id := ids (base + 1), value := v, isMatched := false } ::
    buildCards ids (base + 2) rest

/-- `createGameState` — `ids` is the nanoid supply in call order
(players first, then cards pairwise, then the game id) and `rand` the
Math.random oracle consumed by `shuffle`. -/
def createGameState (ids : Nat → String) (rand : Nat → Nat)
    (playerCount : Nat) : Except String GameState :=
  if playerCount < 1 ∨ 4 < playerCount then
    Except.error "Player count must be between 1 and 4"
  else
    let players := (List.range playerCount).map (fun i =>
      { id := ids i, color := colors.getD i "", score := 0 : Player })
    let cards := buildCards ids playerCount cardValues
    let shuffledCards := shuffle rand cards
    Except.ok
      { gameId := ids (playerCount + 16),
        cards := shuffledCards,
        players := players,
        activePlayerIndex := 0,
        flippedCardIds := [],
        lockBoard := false,
        status := "playing" }

/-- JSON-like values, used to state which fields the sanitizers emit. -/
inductive JVal where
  | jstr : String → JVal
  | jnat : Nat → JVal
  | jbool : Bool → JVal
  | jarr : List JVal → JVal
  | jobj : List (String × JVal) → JVal
deriving Repr

/-- Keys of a JSON object (empty for non-objects). -/
def jobjKeys : JVal → List String
  | .jobj fields => fields.map (fun f => f.1)
  | _ => []

/-- Look a key up in a JSON object. -/
def jobjGet (j : JVal) (k : String) : Option JVal :=
  match j with
  | .jobj fields =>
    match fields.find? (fun f => f.1 == k) with
    | some f => some f.2
    | none => none
  | _ => none

/-- The cards array of a sanitized view. -/
def viewCards (j : JVal) : List JVal :=
  match jobjGet j "cards" with
  | some (.jarr l) => l
  | _ => []

/-- Per-card projection of `sanitizeGameState` (server/game variant):
`value` is included only when the card is matched or currently
flipped; otherwise the key is not emitted at all. -/
def sanitizeCard (gameState : GameState) (card : Card) : JVal :=
  let shouldRevealValue :=
    card.isMatched || gameState.flippedCardIds.contains card.id
  if shouldRevealValue then
    .jobj [("id", .jstr card.id), ("isMatched", .jbool card.isMatched),
           ("value", .jstr card.value)]
  else
    .jobj [("id", .jstr card.id), ("isMatched", .jbool card.isMatched)]

/-- `sanitizeGameState` — server/game variant: the view also carries
`lockBoard` and `flippedCardIds`. -/
def sanitizeGameState (gameState : GameState) : JVal :=
  .jobj
    [("gameId", .jstr gameState.gameId),
     ("status", .jstr gameState.status),
     ("lockBoard", .jbool gameState.lockBoard),
     ("flippedCardIds", .jarr (gameState.flippedCardIds.map .jstr)),
     ("activePlayerIndex", .jnat gameState.activePlayerIndex),
     ("players", .jarr (gameState.players.map (fun player =>
        .jobj [("id", .jstr player.id), ("color", .jstr player.color),
               ("score", .jnat player.score)]))),
     ("cards", .jarr (gameState.cards.map (sanitizeCard gameState)))]

/-- Per-card projection of the messageFormats sanitizer: it adds an
`isFaceUp` flag and includes `value` only when the card is face up. -/
def sanitizeCardMF (gameState : GameState) (card : Card) : JVal :=
  let isFaceUp :=
    gameState.flippedCardIds.contains card.id || card.isMatched
  if isFaceUp then
    .jobj [("id", .jstr card.id), ("isFaceUp", .jbool isFaceUp),
           ("isMatched", .jbool card.isMatched), ("value", .jstr card.value)]
  else
    .jobj [("id", .jstr card.id), ("isFaceUp", .jbool isFaceUp),
           ("isMatched", .jbool card.isMatched)]

/-- `sanitizeGameState` — messageFormats variant: excludes `lockBoard`
and `flippedCardIds`, passes players through whole. -/
def sanitizeGameStateMF (gameState : GameState) : JVal :=
  .jobj
    [("gameId", .jstr gameState.gameId),
     ("cards", .jarr (gameState.cards.map (sanitizeCardMF gameState))),
     ("players", .jarr (gameState.players.map (fun player =>
        .jobj [("id", .jstr player.id), ("color", .jstr player.color),
               ("score", .jnat player.score)]))),
     ("activePlayerIndex", .jnat gameState.activePlayerIndex),
     ("status", .jstr gameState.status)]

/-- Inbound NEW_GAME payload: the wire value of `playerCount` as the
text JS coerces it to before `parseInt`; `none` when the field is
absent. -/
structure NewGameMessage where
  playerCount : Option String
deriving DecidableEq, Repr

/-- Inbound FLIP_CARD payload. -/
structure FlipCardMessage where
  gameId : Option String
  cardId : Option String
deriving DecidableEq, Repr

/-- Result object of the validators; absent fields are `none`. -/
structure ValidationResult where
  valid : Bool
  error : Option String
  playerCount : Option Int
  gameId : Option String
  cardId : Option String
deriving DecidableEq, Repr

/-- JS StrWhiteSpaceChar: WhiteSpace (TAB, VT, FF, SP, NBSP, ZWNBSP
and the Unicode Space_Separator code points) and LineTerminator (LF,
CR, LS, PS). -/
def isJsWhitespace (ch : Char) : Bool :=
  ch = ' ' ∨ ch = '\t' ∨ ch = '\n' ∨ ch = '\r' ∨
  ch.toNat = 0x0B ∨ ch.toNat = 0x0C ∨ ch.toNat = 0xA0 ∨
  ch.toNat = 0x1680 ∨ (0x2000 ≤ ch.toNat ∧ ch.toNat ≤ 0x200A) ∨
  ch.toNat = 0x2028 ∨ ch.toNat = 0x2029 ∨ ch.toNat = 0x202F ∨
  ch.toNat = 0x205F ∨ ch.toNat = 0x3000 ∨ ch.toNat = 0xFEFF

/-- Value of a decimal digit; `none` for any other character. -/
def decDigit (ch : Char) : Option Nat :=
  if ch.isDigit then some (ch.toNat - 48) else none

/-- Value of a hexadecimal digit; `none` for any other character. -/
def hexDigit (ch : Char) : Option Nat :=
  if ch.isDigit then some (ch.toNat - 48)
  else if 'a' ≤ ch ∧ ch ≤ 'f' then some (ch.toNat - 87)
  else if 'A' ≤ ch ∧ ch ≤ 'F' then some (ch.toNat - 55)
  else none

/-- Longest leading run of digits of the given radix, as a number;
`none` when it is empty (NaN). -/
def leadingNatIn (radix : Nat) (digit : Char → Option Nat)
    (cs : List Char) : Option Nat :=
  match cs.takeWhile (fun ch => (digit ch).isSome) with
  | [] => none
  | ds => some (ds.foldl (fun acc ch => acc * radix + (digit ch).getD 0) 0)

/-- ECMA-262 `parseInt` digit phase when no radix is supplied: a
`0x`/`0X` prefix selects radix 16, otherwise radix 10. -/
def parseIntUnsigned (cs : List Char) : Option Nat :=
  match cs with
  | '0' :: 'x' :: rest => leadingNatIn 16 hexDigit rest
  | '0' :: 'X' :: rest => leadingNatIn 16 hexDigit rest
  | _ => leadingNatIn 10 decDigit cs

/-- JS `parseInt` called without a radix: skip leading whitespace,
optional sign, hex-prefix auto-detection, then the longest digit run;
`none` models NaN. -/
def parseInt (s : String) : Option Int :=
  match s.data.dropWhile isJsWhitespace with
  | '-' :: rest => (parseIntUnsigned rest).map (fun n => -(n : Int))
  | '+' :: rest => (parseIntUnsigned rest).map (fun n => (n : Int))
  | rest => (parseIntUnsigned rest).map (fun n => (n : Int))

/-- `validateNewGame` — falsy `playerCount` (absent or empty) is
"Missing playerCount"; otherwise `parseInt` is applied and the result
checked against [1,4]. -/
def validateNewGame (message : NewGameMessage) : ValidationResult :=
  match message.playerCount with
  | none => ⟨false, some "Missing playerCount", none, none, none⟩
  | some s =>
    if s = "" then ⟨false, some "Missing playerCount", none, none, none⟩
    else
      match parseInt s with
      | none =>
        ⟨false, some "playerCount must be between 1 and 4", none, none, none⟩
      | some count =>
        if count < 1 ∨ 4 < count then
          ⟨false, some "playerCount must be between 1 and 4", none, none, none⟩
        else ⟨true, none, some count, none, none⟩

/-- `validateFlipCard` — falsy (absent or empty) `gameId` then `cardId`
are rejected; otherwise both are passed through. -/
def validateFlipCard (message : FlipCardMessage) : ValidationResult :=
  match message.gameId with
  | none => ⟨false, some "Missing gameId", none, none, none⟩
  | some g =>
    if g = "" then ⟨false, some "Missing gameId", none, none, none⟩
    else
      match message.cardId with
      | none => ⟨false, some "Missing cardId", none, none, none⟩
      | some c =>
        if c = "" then ⟨false, some "Missing cardId", none, none, none⟩
        else ⟨true, none, none, some g, some c⟩

/-- The registry map `games`, with JS `Map` insertion order. -/
def GamesMap := List (String × GameState)

/-- JS `Map.set`: replace in place when the key exists, append
otherwise. -/
def mapSet : List (String × GameState) → String → GameState →
    List (String × GameState)
  | [], k, v => [(k, v)]
  | (k', v') :: rest, k, v =>
    if k' = k then (k, v) :: rest else (k', v') :: mapSet rest k v

/-- `getGame` — `games.get(gameId) ?? null`. -/
def getGame (games : List (String × GameState)) (gameId : String) :
    Option GameState :=
  match games.find? (fun e => e.1 == gameId) with
  | some e => some e.2
  | none => none

/-- `updateGame` — `games.set(gameId, newState)`, no existence check. -/
def updateGame (games : List (String × GameState)) (gameId : String)
    (newState : GameState) : List (String × GameState) :=
  mapSet games gameId newState

/-- The spec's session invariants: at most two flipped ids, no
duplicates, each referencing an existing unmatched card; `won` exactly
when all cards are matched; the board locked only behind a mismatched
visible pair. -/
def SessionInvariant (s : GameState) : Prop :=
  s.flippedCardIds.length ≤ 2 ∧
  s.flippedCardIds.Nodup ∧
  (∀ cid ∈ s.flippedCardIds,
    ∃ c ∈ s.cards, c.id = cid ∧ c.isMatched = false) ∧
  (s.status = "won" ↔ ∀ c ∈ s.cards, c.isMatched = true) ∧
  (s.lockBoard = true →
    ∃ a b ca cb, s.flippedCardIds = [a, b] ∧
      ca ∈ s.cards ∧ ca.id = a ∧ cb ∈ s.cards ∧ cb.id = b ∧
      ca.value ≠ cb.value)

/-- States reachable from a freshly created session through any
sequence of move and unlock transitions (either source variant). -/
inductive Reachable : GameState → Prop where
  | init : ∀ ids rand playerCount gs,
      createGameState ids rand playerCount = Except.ok gs → Reachable gs
  | move : ∀ s cardId delay gs, Reachable s →
      (applyMove s cardId delay).gameState = some gs → Reachable gs
  | moveE : ∀ s cardId delay gs, Reachable s →
      (applyMoveE s cardId delay).gameState = some gs → Reachable gs
  | unlock : ∀ s, Reachable s → Reachable (unlockBoardAfterNoMatch s)
  | unlockE : ∀ s, Reachable s → Reachable (unlockBoard s)

/-- Spec-side reading of "playerCount is an integer in [1,4]" for a
wire value carried as its decimal text. -/
def IsIntegerInOneToFour (v : Option String) : Prop :=
  v = some "1" ∨ v = some "2" ∨ v = some "3" ∨ v = some "4"

/-- A concrete id supply (distinct ids of increasing length). -/
def ids0 : Nat → String := fun n => String.mk (List.replicate (n + 1) 'x')

/-- A concrete randomness oracle. -/
def rand0 : Nat → Nat := fun _ => 0

/-- A concrete freshly created 1-player session. -/
def initState1 : GameState :=
  match createGameState ids0 rand0 1 with
  | Except.ok gs => gs
  | Except.error _ =>
    { gameId := "", cards := [], players := [], activePlayerIndex := 0,
      flippedCardIds := [], lockBoard := false, status := "" }

/-- A concrete freshly created 2-player session. -/
def initState2 : GameState :=
  match createGameState ids0 rand0 2 with
  | Except.ok gs => gs
  | Except.error _ =>
    { gameId := "", cards := [], players := [], activePlayerIndex := 0,
      flippedCardIds := [], lockBoard := false, status := "" }

/-- A small two-player session with one card already flipped. -/
def sTwo : GameState :=
  { gameId := "g",
    cards := [⟨"c1", "A", false⟩, ⟨"c2", "A", false⟩,
              ⟨"c3", "B", false⟩, ⟨"c4", "B", false⟩],
    players := [⟨"p1", "red", 0⟩, ⟨"p2", "yellow", 0⟩],
    activePlayerIndex := 0,
    flippedCardIds := ["c1"],
    lockBoard := false,
    status := "playing" }

/-- A session whose board is locked while nothing is flipped. -/
def sLock : GameState :=
  { gameId := "g2",
    cards := [⟨"c1", "A", false⟩, ⟨"c2", "A", false⟩],
    players := [⟨"p1", "red", 0⟩],
    activePlayerIndex := 0,
    flippedCardIds := [],
    lockBoard := true,
    status := "playing" }

theorem cons_set_perm (b : α) (l : List α) :
    ∀ k a, l.get? k = some b → (b :: l.set k a).Perm (a :: l) := by
  induction l with
  | nil => intro k a h; cases k <;> simp [List.get?] at h
  | cons c t ih =>
    intro k a h
    cases k with
    | zero =>
      rw [List.get?_cons_zero] at h
      have hcb : c = b := by injection h
      rw [hcb]
      exact List.Perm.swap a b t
    | succ m =>
      rw [List.get?_cons_succ] at h
      have ht := ih m a h
      show (b :: c :: t.set m a).Perm (a :: c :: t)
      have h1 : (b :: c :: t.set m a).Perm (c :: b :: t.set m a) :=
        List.Perm.swap c b _
      have h2 : (c :: b :: t.set m a).Perm (c :: a :: t) := ht.cons c
      have h3 : (c :: a :: t).Perm (a :: c :: t) := List.Perm.swap a c t
      exact (h1.trans h2).trans h3

theorem set_set_perm :
    ∀ (l : List α) (i j : Nat) (a b : α), l.get? i = some a →
      l.get? j = some b → ((l.set i b).set j a).Perm l := by
  intro l
  induction l with
  | nil => intro i j a b hi; cases i <;> simp [List.get?] at hi
  | cons c t ih =>
    intro i j a b hi hj
    cases i with
    | zero =>
      rw [List.get?_cons_zero] at hi
      have hca : c = a := by injection hi
      cases j with
      | zero =>
        rw [List.get?_cons_zero] at hj
        have hcb : c = b := by injection hj
        show ((((c :: t).set 0 b).set 0 a)).Perm (c :: t)
        rw [hca]
        simp [List.set]
      | succ m =>
        rw [List.get?_cons_succ] at hj
        show (b :: t.set m a).Perm (c :: t)
        rw [hca]
        exact cons_set_perm b t m a hj
    | succ m =>
      rw [List.get?_cons_succ] at hi
      cases j with
      | zero =>
        rw [List.get?_cons_zero] at hj
        have hcb : c = b := by injection hj
        show (a :: t.set m b).Perm (c :: t)
        rw [hcb]
        exact cons_set_perm a t m b hi
      | succ k =>
        rw [List.get?_cons_succ] at hj
        exact (ih m k a b hi hj).cons c

theorem listSwap_perm (l : List α) (i j : Nat) : (listSwap l i j).Perm l := by
  unfold listSwap
  cases hi : l.get? i with
  | none => exact List.Perm.refl l
  | some a =>
    cases hj : l.get? j with
    | none => exact List.Perm.refl l
    | some b => exact set_set_perm l i j a b hi hj

theorem fyLoop_perm (rand : Nat → Nat) :
    ∀ (n : Nat) (l : List α), (fyLoop rand n l).Perm l := by
  intro n
  induction n with
  | zero => intro l; exact List.Perm.refl l
  | succ i ih =>
    intro l
    exact (ih _).trans (listSwap_perm l (i + 1) (rand (i + 1) % (i + 2)))

theorem shuffle_perm (rand : Nat → Nat) (l : List α) :
    (shuffle rand l).Perm l :=
  fyLoop_perm rand (l.length - 1) l

/-- C9: `shuffle` returns a permutation of its input multiset (the
embedding is pure, mirroring the source's copy of the array before the
loop, so the input itself is untouched), and an input of length at
most 1 is returned unchanged. -/
theorem c9_shuffle_perm_and_short_id (rand : Nat → Nat) (l : List α) :
    (shuffle rand l).Perm l ∧ (l.length ≤ 1 → shuffle rand l = l) := by
  constructor
  · exact shuffle_perm rand l
  · intro h
    have h0 : l.length - 1 = 0 := by omega
    simp [shuffle, h0, fyLoop]

theorem c9_shuffle_witness :
    (shuffle rand0 (["a"] : List String)).Perm ["a"] ∧
      shuffle rand0 (["a"] : List String) = ["a"] :=
  ⟨(c9_shuffle_perm_and_short_id rand0 ["a"]).1,
   (c9_shuffle_perm_and_short_id rand0 ["a"]).2 (by decide)⟩

/-- C10: `updateGame` stores the new state whether or not a session
with that id is present (JS `Map.set` is an upsert and cannot fail),
and a subsequent `getGame` with the same id returns exactly it. -/
theorem c10_updateGame_upsert (games : List (String × GameState))
    (gameId : String) (newState : GameState) :
    getGame (updateGame games gameId newState) gameId = some newState := by
  unfold updateGame
  induction games with
  | nil => simp [mapSet, getGame, List.find?]
  | cons head tail ih =>
    obtain ⟨k, v⟩ := head
    by_cases hk : k = gameId
    · subst hk
      simp [mapSet, getGame, List.find?]
    · simp only [mapSet]
      rw [if_neg hk]
      unfold getGame at ih ⊢
      rw [List.find?_cons_of_neg]
      · exact ih
      · simp [hk]

theorem sanitizeCard_value_spec (g : GameState) (card : Card) :
    (("value" ∈ jobjKeys (sanitizeCard g card)) ↔
      (card.id ∈ g.flippedCardIds ∨ card.isMatched = true)) ∧
    ((card.id ∈ g.flippedCardIds ∨ card.isMatched = true) →
      jobjGet (sanitizeCard g card) "value" = some (.jstr card.value)) ∧
    (¬(card.id ∈ g.flippedCardIds ∨ card.isMatched = true) →
      jobjGet (sanitizeCard g card) "value" = none) := by
  have hiff : (card.isMatched || g.flippedCardIds.contains card.id) = true ↔
      (card.id ∈ g.flippedCardIds ∨ card.isMatched = true) := by
    simp [Bool.or_eq_true]
    exact or_comm
  rcases Bool.eq_false_or_eq_true
      (card.isMatched || g.flippedCardIds.contains card.id) with h | h
  · have hr : card.id ∈ g.flippedCardIds ∨ card.isMatched = true := hiff.mp h
    refine ⟨?_, ?_, ?_⟩
    · simp only [sanitizeCard]
      rw [h]
      simp [jobjKeys, hr]
    · intro _
      simp only [sanitizeCard]
      rw [h]
      simp [jobjGet, List.find?]
    · intro hcontra; exact absurd hr hcontra
  · have hr : ¬(card.id ∈ g.flippedCardIds ∨ card.isMatched = true) := by
      intro hc
      rw [← hiff] at hc
      rw [h] at hc
      simp at hc
    refine ⟨?_, ?_, ?_⟩
    · simp only [sanitizeCard]
      rw [h]
      simp [jobjKeys, hr]
    · intro hcontra; exact absurd hcontra hr
    · intro _
      simp only [sanitizeCard]
      rw [h]
      simp [jobjGet, List.find?]

theorem sanitizeCardMF_value_spec (g : GameState) (card : Card) :
    (("value" ∈ jobjKeys (sanitizeCardMF g card)) ↔
      (card.id ∈ g.flippedCardIds ∨ card.isMatched = true)) ∧
    ((card.id ∈ g.flippedCardIds ∨ card.isMatched = true) →
      jobjGet (sanitizeCardMF g card) "value" = some (.jstr card.value)) ∧
    (¬(card.id ∈ g.flippedCardIds ∨ card.isMatched = true) →
      jobjGet (sanitizeCardMF g card) "value" = none) := by
  have hiff : (g.flippedCardIds.contains card.id || card.isMatched) = true ↔
      (card.id ∈ g.flippedCardIds ∨ card.isMatched = true) := by
    simp [Bool.or_eq_true]
  rcases Bool.eq_false_or_eq_true
      (g.flippedCardIds.contains card.id || card.isMatched) with h | h
  · have hr : card.id ∈ g.flippedCardIds ∨ card.isMatched = true := hiff.mp h
    refine ⟨?_, ?_, ?_⟩
    · simp only [sanitizeCardMF]
      rw [h]
      simp [jobjKeys, hr]
    · intro _
      simp only [sanitizeCardMF]
      rw [h]
      simp [jobjGet, List.find?]
    · intro hcontra; exact absurd hr hcontra
  · have hr : ¬(card.id ∈ g.flippedCardIds ∨ card.isMatched = true) := by
      intro hc
      rw [← hiff] at hc
      rw [h] at hc
      simp at hc
    refine ⟨?_, ?_, ?_⟩
    · simp only [sanitizeCardMF]
      rw [h]
      simp [jobjKeys, hr]
    · intro hcontra; exact absurd hcontra hr
    · intro _
      simp only [sanitizeCardMF]
      rw [h]
      simp [jobjGet, List.find?]

/-- C1: in both sanitizer variants, a card's `value` field is present
in the emitted card object if and only if the card's id is in
`flippedCardIds` or the card is matched; for every other card the
`value` key is entirely absent from the emitted object. -/
theorem c1_sanitize_value_present_iff (g : GameState) :
    (viewCards (sanitizeGameState g) = g.cards.map (sanitizeCard g) ∧
     viewCards (sanitizeGameStateMF g) = g.cards.map (sanitizeCardMF g)) ∧
    ∀ card : Card,
      ((("value" ∈ jobjKeys (sanitizeCard g card)) ↔
         (card.id ∈ g.flippedCardIds ∨ card.isMatched = true)) ∧
       ((card.id ∈ g.flippedCardIds ∨ card.isMatched = true) →
         jobjGet (sanitizeCard g card) "value" = some (.jstr card.value)) ∧
       (¬(card.id ∈ g.flippedCardIds ∨ card.isMatched = true) →
         jobjGet (sanitizeCard g card) "value" = none)) ∧
      ((("value" ∈ jobjKeys (sanitizeCardMF g card)) ↔
         (card.id ∈ g.flippedCardIds ∨ card.isMatched = true)) ∧
       ((card.id ∈ g.flippedCardIds ∨ card.isMatched = true) →
         jobjGet (sanitizeCardMF g card) "value" = some (.jstr card.value)) ∧
       (¬(card.id ∈ g.flippedCardIds ∨ card.isMatched = true) →
         jobjGet (sanitizeCardMF g card) "value" = none)) := by
  refine ⟨⟨rfl, rfl⟩, ?_⟩
  intro card
  exact ⟨sanitizeCard_value_spec g card, sanitizeCardMF_value_spec g card⟩

theorem c1_sanitize_witness :
    jobjGet (sanitizeCard sTwo ⟨"c1", "A", false⟩) "value" =
      some (.jstr "A") ∧
    jobjGet (sanitizeCardMF sTwo ⟨"c3", "B", false⟩) "value" = none :=
  ⟨(((c1_sanitize_value_present_iff sTwo).2 ⟨"c1", "A", false⟩).1).2.1
     (Or.inl (by decide)),
   (((c1_sanitize_value_present_iff sTwo).2 ⟨"c3", "B", false⟩).2).2.2
     (by decide)⟩

/-- C8 counterexample: the server/game sanitizer's view of a concrete
session carries a `lockBoard` field, which is outside the claimed
field set, and the messageFormats sanitizer adds a per-card
`isFaceUp` field. -/
theorem c8_counterexample :
    ("lockBoard" ∈ jobjKeys (sanitizeGameState sTwo) ∧
     "lockBoard" ∉ (["gameId", "status", "players", "activePlayerIndex",
       "cards"] : List String)) ∧
    "isFaceUp" ∈ jobjKeys (sanitizeCardMF sTwo ⟨"c1", "A", false⟩) := by
  decide

/-- C8 (amended): the server/game sanitizer's view has exactly the
fields {gameId, status, lockBoard, flippedCardIds, activePlayerIndex,
players, cards} with cards {id, isMatched, value?}; the messageFormats
sanitizer's view has exactly {gameId, cards, players,
activePlayerIndex, status} with cards {id, isFaceUp, isMatched,
value?}; `value` stays conditional as claimed. -/
theorem c8_view_field_sets (g : GameState) :
    jobjKeys (sanitizeGameState g) =
      ["gameId", "status", "lockBoard", "flippedCardIds",
       "activePlayerIndex", "players", "cards"] ∧
    (∀ card : Card, jobjKeys (sanitizeCard g card) =
      if card.isMatched || g.flippedCardIds.contains card.id then
        ["id", "isMatched", "value"]
      else ["id", "isMatched"]) ∧
    jobjKeys (sanitizeGameStateMF g) =
      ["gameId", "cards", "players", "activePlayerIndex", "status"] ∧
    (∀ card : Card, jobjKeys (sanitizeCardMF g card) =
      if g.flippedCardIds.contains card.id || card.isMatched then
        ["id", "isFaceUp", "isMatched", "value"]
      else ["id", "isFaceUp", "isMatched"]) := by
  refine ⟨rfl, ?_, rfl, ?_⟩
  · intro card
    rcases Bool.eq_false_or_eq_true
        (card.isMatched || g.flippedCardIds.contains card.id) with h | h
    · simp only [sanitizeCard]
      rw [h]
      simp [jobjKeys]
    · simp only [sanitizeCard]
      rw [h]
      simp [jobjKeys]
  · intro card
    rcases Bool.eq_false_or_eq_true
        (g.flippedCardIds.contains card.id || card.isMatched) with h | h
    · simp only [sanitizeCardMF]
      rw [h]
      simp [jobjKeys]
    · simp only [sanitizeCardMF]
      rw [h]
      simp [jobjKeys]

/-- C7 counterexample: `validateNewGame` accepts playerCount "2.5"
(`parseInt` truncates it to 2), though 2.5 is not an integer in [1,4];
so acceptance is not equivalent to the wire value being an integer in
[1,4]. -/
theorem c7_counterexample :
    (validateNewGame ⟨some "2.5"⟩).valid = true ∧
    (validateNewGame ⟨some "2.5"⟩).playerCount = some 2 ∧
    ¬IsIntegerInOneToFour (some "2.5") := by
  unfold IsIntegerInOneToFour
  decide

/-- C7 (amended): `validateNewGame` accepts exactly when `playerCount`
is present, non-empty, and its `parseInt` reading (radix-10 digit
prefix, or radix-16 after a `0x`/`0X` prefix, per ECMA-262 when no
radix is supplied) lies in [1,4] — so non-integer inputs such as "2.5"
are accepted via truncation and hex inputs such as "0x3" via the hex
prefix; `validateFlipCard` accepts exactly when `gameId` and `cardId`
are present and non-empty; every rejection carries a structured error,
and both validators are pure (they return fresh result objects and
touch no state). -/
theorem c7_validators_amended (m : NewGameMessage) (f : FlipCardMessage) :
    ((validateNewGame m).valid = true ↔
      ∃ s n, m.playerCount = some s ∧ s ≠ "" ∧ parseInt s = some n ∧
        1 ≤ n ∧ n ≤ 4) ∧
    ((validateNewGame m).valid = false → (validateNewGame m).error ≠ none) ∧
    ((validateFlipCard f).valid = true ↔
      (∃ gid, f.gameId = some gid ∧ gid ≠ "") ∧
      (∃ cid, f.cardId = some cid ∧ cid ≠ "")) ∧
    ((validateFlipCard f).valid = false →
      (validateFlipCard f).error ≠ none) := by
  refine ⟨?_, ?_, ?_, ?_⟩
  · obtain ⟨pc⟩ := m
    cases pc with
    | none => simp [validateNewGame]
    | some s =>
      by_cases hs : s = ""
      · simp [validateNewGame, hs]
      · cases hp : parseInt s with
        | none => simp [validateNewGame, hs, hp]
        | some n =>
          by_cases hr : n < 1 ∨ 4 < n
          · simp [validateNewGame, hs, hp, hr]
            omega
          · simp [validateNewGame, hs, hp, hr]
            omega
  · obtain ⟨pc⟩ := m
    cases pc with
    | none => simp [validateNewGame]
    | some s =>
      by_cases hs : s = ""
      · simp [validateNewGame, hs]
      · cases hp : parseInt s with
        | none => simp [validateNewGame, hs, hp]
        | some n =>
          by_cases hr : n < 1 ∨ 4 < n
          · simp [validateNewGame, hs, hp, hr]
          · simp [validateNewGame, hs, hp, hr]
  · obtain ⟨gid, cid⟩ := f
    cases gid with
    | none => simp [validateFlipCard]
    | some g =>
      by_cases hg : g = ""
      · simp [validateFlipCard, hg]
      · cases cid with
        | none => simp [validateFlipCard, hg]
        | some c =>
          by_cases hc : c = ""
          · simp [validateFlipCard, hg, hc]
          · simp [validateFlipCard, hg, hc]
  · obtain ⟨gid, cid⟩ := f
    cases gid with
    | none => simp [validateFlipCard]
    | some g =>
      by_cases hg : g = ""
      · simp [validateFlipCard, hg]
      · cases cid with
        | none => simp [validateFlipCard, hg]
        | some c =>
          by_cases hc : c = ""
          · simp [validateFlipCard, hg, hc]
          · simp [validateFlipCard, hg, hc]

theorem c7_validators_witness :
    (validateNewGame ⟨some "3"⟩).valid = true ∧
    (validateNewGame ⟨some "0x3"⟩).valid = true ∧
    (validateFlipCard ⟨some "g", some "c"⟩).valid = true :=
  ⟨(c7_validators_amended ⟨some "3"⟩ ⟨some "g", some "c"⟩).1.mpr
     ⟨"3", 3, rfl, by decide, by decide, by decide, by decide⟩,
   (c7_validators_amended ⟨some "0x3"⟩ ⟨some "g", some "c"⟩).1.mpr
     ⟨"0x3", 3, rfl, by decide, by decide, by decide, by decide⟩,
   (c7_validators_amended ⟨some "3"⟩ ⟨some "g", some "c"⟩).2.2.1.mpr
     ⟨⟨"g", rfl, by decide⟩, ⟨"c", rfl, by decide⟩⟩⟩

theorem buildCards_length (ids : Nat → String) :
    ∀ (vs : List String) (base : Nat),
      (buildCards ids base vs).length = 2 * vs.length := by
  intro vs
  induction vs with
  | nil => intro base; simp [buildCards]
  | cons v rest ih =>
    intro base
    simp [buildCards, ih (base + 2)]
    omega

theorem buildCards_mem (ids : Nat → String) :
    ∀ (vs : List String) (base : Nat) (c : Card),
      c ∈ buildCards ids base vs → c.isMatched = false ∧ c.value ∈ vs := by
  intro vs
  induction vs with
  | nil => intro base c hc; simp [buildCards] at hc
  | cons v rest ih =>
    intro base c hc
    simp only [buildCards, List.mem_cons] at hc
    rcases hc with rfl | rfl | hc
    · exact ⟨rfl, List.mem_cons_self v rest⟩
    · exact ⟨rfl, List.mem_cons_self v rest⟩
    · obtain ⟨h1, h2⟩ := ih (base + 2) c hc
      exact ⟨h1, List.mem_cons_of_mem v h2⟩

theorem buildCards_countP (ids : Nat → String) (w : String) :
    ∀ (vs : List String) (base : Nat),
      (buildCards ids base vs).countP (fun c => c.value == w) =
        2 * vs.countP (fun v => v == w) := by
  intro vs
  induction vs with
  | nil => intro base; simp [buildCards]
  | cons v rest ih =>
    intro base
    simp only [buildCards, List.countP_cons, ih (base + 2)]
    by_cases hv : (v == w) = true
    · simp [hv]; omega
    · simp at hv
      simp [hv]

set_option maxHeartbeats 1000000 in
/-- C6: `createGameState` fails exactly when `playerCount` is outside
[1,4]; otherwise it returns a session with `playerCount` players in
palette-color order with score 0, 16 all-unmatched cards forming 8
pairs (each symbol value occurring exactly twice, shuffle preserving
the multiset), active player 0, no flips, unlocked, status playing. -/
theorem c6_createGameState_spec (ids : Nat → String) (rand : Nat → Nat)
    (playerCount : Nat) :
    ((∃ e, createGameState ids rand playerCount = Except.error e) ↔
      (playerCount < 1 ∨ 4 < playerCount)) ∧
    (∀ gs, createGameState ids rand playerCount = Except.ok gs →
      gs.players.length = playerCount ∧
      (∀ i, i < playerCount →
        gs.players.get? i = some ⟨ids i, colors.getD i "", 0⟩) ∧
      gs.cards.length = 16 ∧
      (∀ v ∈ cardValues, gs.cards.countP (fun c => c.value == v) = 2) ∧
      (∀ c ∈ gs.cards, c.isMatched = false ∧ c.value ∈ cardValues) ∧
      gs.activePlayerIndex = 0 ∧ gs.flippedCardIds = [] ∧
      gs.lockBoard = false ∧ gs.status = "playing") := by
  by_cases hpc : playerCount < 1 ∨ 4 < playerCount
  · constructor
    · exact ⟨fun _ => hpc, fun _ =>
        ⟨"Player count must be between 1 and 4",
         by rw [createGameState, if_pos hpc]⟩⟩
    · intro gs hgs
      rw [createGameState, if_pos hpc] at hgs
      cases hgs
  · constructor
    · constructor
      · rintro ⟨e, he⟩
        rw [createGameState, if_neg hpc] at he
        exact Except.noConfusion he
      · intro h
        exact absurd h hpc
    · intro gs hgs
      rw [createGameState, if_neg hpc] at hgs
      injection hgs with hgs
      subst hgs
      have hperm : (shuffle rand (buildCards ids playerCount cardValues)).Perm
          (buildCards ids playerCount cardValues) :=
        shuffle_perm rand _
      refine ⟨by simp, ?_, ?_, ?_, ?_, rfl, rfl, rfl, rfl⟩
      · intro i hi
        simp [List.get?_eq_getElem?, List.getElem?_map, List.getElem?_range, hi]
      · rw [hperm.length_eq, buildCards_length]
        decide
      · intro v hv
        rw [hperm.countP_eq, buildCards_countP]
        have h1 : cardValues.countP (fun x => x == v) = 1 := by
          simp only [cardValues, List.mem_cons, List.not_mem_nil,
            or_false] at hv
          rcases hv with rfl | rfl | rfl | rfl | rfl | rfl | rfl | rfl <;>
            decide
        rw [h1]
      · dsimp only
        intro c hc
        exact buildCards_mem ids cardValues playerCount c (hperm.subset hc)

theorem c6_createGameState_witness :
    (∃ e, createGameState ids0 rand0 5 = Except.error e) ∧
    (initState2.players.length = 2 ∧ initState2.cards.length = 16 ∧
      initState2.status = "playing") :=
  ⟨(c6_createGameState_spec ids0 rand0 5).1.mpr (Or.inr (by decide)),
   ⟨((c6_createGameState_spec ids0 rand0 2).2 initState2 rfl).1,
    ((c6_createGameState_spec ids0 rand0 2).2 initState2 rfl).2.2.1,
    ((c6_createGameState_spec ids0 rand0 2).2 initState2 rfl).2.2.2.2.2.2.2.2⟩⟩

theorem applyMove_two_flips (s : GameState) (firstId cardId : String)
    (firstCard clickedCard : Card) (d : Nat)
    (hst : s.status = "playing") (hlb : s.lockBoard = false)
    (hflip : s.flippedCardIds = [firstId])
    (hfindF : s.cards.find? (fun card => card.id == firstId) = some firstCard)
    (hfindC : s.cards.find? (fun card => card.id == cardId) = some clickedCard)
    (hcm : clickedCard.isMatched = false)
    (hne : cardId ≠ firstId) :
    (applyMove s cardId d =
      if firstCard.value = clickedCard.value then
        ⟨false, none,
          some { s with
            cards := s.cards.map (fun card =>
              if card.id == firstId || card.id == cardId then
                { card with isMatched := true }
              else card),
            players := mapWithIndex (fun index player =>
              if index = s.activePlayerIndex then
                { player with score := player.score + 1 }
              else player) 0 s.players,
            flippedCardIds := [],
            lockBoard := false,
            status := (if (s.cards.map (fun card =>
                if card.id == firstId || card.id == cardId then
                  { card with isMatched := true }
                else card)).all (fun card => card.isMatched) then
              "won" else "playing") },
          some false, none⟩
      else
        ⟨false, none,
          some { s with
            flippedCardIds := [firstId, cardId],
            lockBoard := true },
          some true, some d⟩) ∧
    (applyMoveE s cardId d =
      if firstCard.value = clickedCard.value then
        ⟨false, none,
          some { s with
            cards := s.cards.map (fun card =>
              if card.id == firstId || card.id == cardId then
                { card with isMatched := true }
              else card),
            players := mapWithIndex (fun index player =>
              if index = s.activePlayerIndex then
                { player with score := player.score + 1 }
              else player) 0 s.players,
            flippedCardIds := [],
            lockBoard := false,
            status := (if (s.cards.map (fun card =>
                if card.id == firstId || card.id == cardId then
                  { card with isMatched := true }
                else card)).all (fun card => card.isMatched) then
              "won" else "playing") },
          some false, none⟩
      else
        ⟨false, none,
          some { s with
            flippedCardIds := [firstId, cardId],
            lockBoard := true,
            activePlayerIndex :=
              (s.activePlayerIndex + 1) % s.players.length },
          some true, some d⟩) := by
  have hbne : (cardId == firstId) = false := by
    simp [hne]
  constructor
  · rw [applyMove]
    rw [hfindC]
    simp only [hst, hlb, hflip, hcm, hbne, hfindF, hfindC]
    norm_num [List.contains, List.getD]
    rw [if_neg hne, hfindF, hfindC]
  · rw [applyMoveE]
    rw [hfindC]
    simp only [hst, hlb, hflip, hcm, hbne, hfindF, hfindC]
    norm_num [List.contains, List.getD]
    rw [if_neg hne, hfindF, hfindC]

theorem mapWithIndex_length (f : Nat → α → α) :
    ∀ (l : List α) (start : Nat), (mapWithIndex f start l).length = l.length := by
  intro l
  induction l with
  | nil => intro start; simp [mapWithIndex]
  | cons a t ih =>
    intro start
    simp [mapWithIndex, ih (start + 1)]

theorem mapWithIndex_get? (f : Nat → α → α) :
    ∀ (l : List α) (start n : Nat),
      (mapWithIndex f start l).get? n = (l.get? n).map (f (start + n)) := by
  intro l
  induction l with
  | nil => intro start n; simp [mapWithIndex]
  | cons a t ih =>
    intro start n
    cases n with
    | zero => simp [mapWithIndex, List.get?]
    | succ m =>
      show (mapWithIndex f (start + 1) t).get? m =
        Option.map (f (start + (m + 1))) (t.get? m)
      rw [ih (start + 1) m]
      have harith : start + 1 + m = start + (m + 1) := by omega
      rw [harith]

/-- C4: in both variants, an accepted second flip matching the first
card's value marks both cards matched, increments exactly the active
player's score by 1, clears the flips, keeps the board unlocked and
the turn unchanged, and sets status "won" exactly when every card of
the resulting session is matched. -/
theorem c4_match_resolution (s : GameState) (firstId cardId : String)
    (firstCard clickedCard : Card)
    (hst : s.status = "playing") (hlb : s.lockBoard = false)
    (hflip : s.flippedCardIds = [firstId])
    (hfindF : s.cards.find? (fun card => card.id == firstId) = some firstCard)
    (hfindC : s.cards.find? (fun card => card.id == cardId) = some clickedCard)
    (hcm : clickedCard.isMatched = false)
    (hne : cardId ≠ firstId)
    (hv : firstCard.value = clickedCard.value)
    (hapi : s.activePlayerIndex < s.players.length) :
    ∃ gs,
      (applyMove s cardId DEFAULT_REVEAL_DELAY_MS).gameState = some gs ∧
      (applyMoveE s cardId DEFAULT_REVEAL_DELAY_MS).gameState = some gs ∧
      (∀ c ∈ gs.cards, (c.id = firstId ∨ c.id = cardId) → c.isMatched = true) ∧
      gs.players.length = s.players.length ∧
      (∀ i, gs.players.get? i =
        if i = s.activePlayerIndex then
          (s.players.get? i).map (fun p => { p with score := p.score + 1 })
        else s.players.get? i) ∧
      (∃ p, s.players.get? s.activePlayerIndex = some p ∧
        gs.players.get? s.activePlayerIndex =
          some { p with score := p.score + 1 }) ∧
      gs.flippedCardIds = [] ∧ gs.lockBoard = false ∧
      gs.activePlayerIndex = s.activePlayerIndex ∧
      (gs.status = "won" ↔ ∀ c ∈ gs.cards, c.isMatched = true) := by
  obtain ⟨h1, h2⟩ := applyMove_two_flips s firstId cardId firstCard
    clickedCard DEFAULT_REVEAL_DELAY_MS hst hlb hflip hfindF hfindC hcm hne
  rw [if_pos hv] at h1 h2
  refine ⟨{ s with
      cards := s.cards.map (fun card =>
        if card.id == firstId || card.id == cardId then
          { card with isMatched := true }
        else card),
      players := mapWithIndex (fun index player =>
        if index = s.activePlayerIndex then
          { player with score := player.score + 1 }
        else player) 0 s.players,
      flippedCardIds := [],
      lockBoard := false,
      status := (if (s.cards.map (fun card =>
          if card.id == firstId || card.id == cardId then
            { card with isMatched := true }
          else card)).all (fun card => card.isMatched) then
        "won" else "playing") },
    by rw [h1], by rw [h2], ?_, ?_, ?_, ?_, rfl, rfl, rfl, ?_⟩
  · intro c hc hid
    obtain ⟨c0, _, rfl⟩ := List.mem_map.mp hc
    rcases Bool.eq_false_or_eq_true
        (c0.id == firstId || c0.id == cardId) with hb | hb
    · rw [if_pos hb]
    · exfalso
      rw [if_neg (by simp [hb])] at hid
      simp at hb
      rcases hid with h | h
      · exact absurd h hb.1
      · exact absurd h hb.2
  · exact mapWithIndex_length _ s.players 0
  · intro i
    rw [mapWithIndex_get? _ s.players 0 i, Nat.zero_add]
    by_cases hi : i = s.activePlayerIndex
    · rw [if_pos hi]
      cases s.players.get? i with
      | none => simp
      | some p => simp [hi]
    · rw [if_neg hi]
      cases s.players.get? i with
      | none => simp
      | some p => simp [hi]
  · have hg : s.players.get? s.activePlayerIndex =
        some (s.players.get ⟨s.activePlayerIndex, hapi⟩) :=
      List.get?_eq_get hapi
    refine ⟨s.players.get ⟨s.activePlayerIndex, hapi⟩, hg, ?_⟩
    rw [mapWithIndex_get? _ s.players 0 s.activePlayerIndex,
      Nat.zero_add, hg]
    simp
  · dsimp only
    rcases Bool.eq_false_or_eq_true ((s.cards.map (fun card =>
        if card.id == firstId || card.id == cardId then
          { card with isMatched := true }
        else card)).all (fun card => card.isMatched)) with hb | hb
    · rw [if_pos hb]
      constructor
      · intro _
        exact (List.all_eq_true).mp hb
      · intro _
        rfl
    · rw [if_neg (by rw [hb]; decide)]
      constructor
      · intro hw
        exact absurd hw (by decide)
      · intro hall
        exact absurd ((List.all_eq_true).mpr hall) (by rw [hb]; decide)

theorem c4_match_resolution_witness :
    ∃ gs,
      (applyMove sTwo "c2" DEFAULT_REVEAL_DELAY_MS).gameState = some gs ∧
      (applyMoveE sTwo "c2" DEFAULT_REVEAL_DELAY_MS).gameState = some gs ∧
      (∀ c ∈ gs.cards, (c.id = "c1" ∨ c.id = "c2") → c.isMatched = true) ∧
      gs.players.length = sTwo.players.length ∧
      (∀ i, gs.players.get? i =
        if i = sTwo.activePlayerIndex then
          (sTwo.players.get? i).map (fun p => { p with score := p.score + 1 })
        else sTwo.players.get? i) ∧
      (∃ p, sTwo.players.get? sTwo.activePlayerIndex = some p ∧
        gs.players.get? sTwo.activePlayerIndex =
          some { p with score := p.score + 1 }) ∧
      gs.flippedCardIds = [] ∧ gs.lockBoard = false ∧
      gs.activePlayerIndex = sTwo.activePlayerIndex ∧
      (gs.status = "won" ↔ ∀ c ∈ gs.cards, c.isMatched = true) :=
  c4_match_resolution sTwo "c1" "c2" ⟨"c1", "A", false⟩ ⟨"c2", "A", false⟩
    rfl rfl rfl (by decide) (by decide) rfl (by decide) rfl (by decide)

/-- C2: in the deferred (silent-ignore) variant, an accepted second
flip whose value differs from the first card's sets lockBoard, keeps
both ids flipped, leaves the turn unchanged at that instant and
signals a delayed unlock of the default 800 ms; the unlock transition
clears the flips, unlocks, and advances the turn by exactly 1 mod the
player count — and it is the sole rotation point, since `applyMove`
never changes `activePlayerIndex`. -/
theorem c2_mismatch_defers_turn (s : GameState) (firstId cardId : String)
    (firstCard clickedCard : Card)
    (hst : s.status = "playing") (hlb : s.lockBoard = false)
    (hflip : s.flippedCardIds = [firstId])
    (hfindF : s.cards.find? (fun card => card.id == firstId) = some firstCard)
    (hfindC : s.cards.find? (fun card => card.id == cardId) = some clickedCard)
    (hcm : clickedCard.isMatched = false)
    (hne : cardId ≠ firstId)
    (hv : firstCard.value ≠ clickedCard.value) :
    applyMove s cardId DEFAULT_REVEAL_DELAY_MS =
      ⟨false, none,
        some { s with
          flippedCardIds := [firstId, cardId],
          lockBoard := true },
        some true, some DEFAULT_REVEAL_DELAY_MS⟩ ∧
    DEFAULT_REVEAL_DELAY_MS = 800 ∧
    (∀ t : GameState, unlockBoardAfterNoMatch t =
      { t with
        flippedCardIds := [],
        lockBoard := false,
        activePlayerIndex :=
          (t.activePlayerIndex + 1) % t.players.length }) ∧
    (∀ (t : GameState) (c : String) (d : Nat) (r : GameState),
      (applyMove t c d).gameState = some r →
      r.activePlayerIndex = t.activePlayerIndex) := by
  refine ⟨?_, rfl, fun t => rfl, ?_⟩
  · have h := (applyMove_two_flips s firstId cardId firstCard clickedCard
      DEFAULT_REVEAL_DELAY_MS hst hlb hflip hfindF hfindC hcm hne).1
    rw [if_neg hv] at h
    exact h
  · intro t c d r hr
    simp only [applyMove] at hr
    repeat' split at hr
    all_goals
      (cases hr; rfl)

theorem c2_mismatch_witness :
    applyMove sTwo "c3" DEFAULT_REVEAL_DELAY_MS =
      ⟨false, none,
        some { sTwo with flippedCardIds := ["c1", "c3"], lockBoard := true },
        some true, some DEFAULT_REVEAL_DELAY_MS⟩ ∧
    unlockBoardAfterNoMatch
        { sTwo with flippedCardIds := ["c1", "c3"], lockBoard := true } =
      { sTwo with
        flippedCardIds := [],
        lockBoard := false,
        activePlayerIndex :=
          (sTwo.activePlayerIndex + 1) % sTwo.players.length } :=
  ⟨(c2_mismatch_defers_turn sTwo "c1" "c3" ⟨"c1", "A", false⟩
      ⟨"c3", "B", false⟩ rfl rfl rfl (by decide) (by decide) rfl
      (by decide) (by decide)).1,
   (c2_mismatch_defers_turn sTwo "c1" "c3" ⟨"c1", "A", false⟩
      ⟨"c3", "B", false⟩ rfl rfl rfl (by decide) (by decide) rfl
      (by decide) (by decide)).2.2.1
     { sTwo with flippedCardIds := ["c1", "c3"], lockBoard := true }⟩

/-- C3 counterexample: in the error-returning variant the lock-board
check is commented out, so a locked board does not by itself cause a
rejection: on a session with lockBoard = true and no flipped cards,
applyMove accepts the flip (no error, the card becomes flipped). -/
theorem c3_counterexample :
    sLock.lockBoard = true ∧ sLock.status = "playing" ∧
    (applyMoveE sLock "c1" 800).error = none ∧
    (applyMoveE sLock "c1" 800).gameState =
      some { sLock with flippedCardIds := ["c1"] } := by
  refine ⟨rfl, rfl, ?_, ?_⟩ <;> decide

/-- C3 (amended): the error-returning `applyMove` rejects with a named
error exactly when status is not playing, or the clicked card does not
exist or is matched or already flipped, or two cards are already
flipped, or the remembered first flip references no existing card (the
internal-error case); a locked board alone is not rejected (its check
is commented out). Validation rejections return no state; the
internal-error rejection returns the session with flips cleared. -/
theorem c3_rejections_amended (s : GameState) (cardId : String) (d : Nat) :
    ((applyMoveE s cardId d).error ≠ none ↔
      (s.status ≠ "playing" ∨
       s.cards.find? (fun card => card.id == cardId) = none ∨
       (∃ cc, s.cards.find? (fun card => card.id == cardId) = some cc ∧
         cc.isMatched = true) ∨
       cardId ∈ s.flippedCardIds ∨
       2 ≤ s.flippedCardIds.length ∨
       (∃ f, s.flippedCardIds = [f] ∧
         s.cards.find? (fun card => card.id == f) = none))) ∧
    ((applyMoveE s cardId d).error ≠ none →
      ((applyMoveE s cardId d).gameState = none ∨
       (applyMoveE s cardId d).gameState =
         some { s with flippedCardIds := [] })) := by
  by_cases h1 : s.status = "playing"
  case neg =>
    rw [applyMoveE, if_pos (by simpa using h1)]
    constructor
    · simp [h1]
    · intro _
      left
      rfl
  case pos =>
    rw [applyMoveE, if_neg (by simp [h1])]
    cases hfc : s.cards.find? (fun card => card.id == cardId) with
    | none =>
      constructor
      · simp [h1, hfc]
      · intro _
        left
        rfl
    | some cc =>
      dsimp only
      by_cases hm : cc.isMatched = true
      · rw [if_pos hm]
        constructor
        · simp [h1, hfc, hm]
        · intro _
          left
          rfl
      · rw [if_neg hm]
        by_cases hmem : cardId ∈ s.flippedCardIds
        · rw [if_pos (by simpa using hmem)]
          constructor
          · simp [h1, hfc, hmem]
          · intro _
            left
            rfl
        · rw [if_neg (by simpa using hmem)]
          by_cases hlen : 2 ≤ s.flippedCardIds.length
          · rw [if_pos hlen]
            constructor
            · simp [h1, hfc, hlen]
            · intro _
              left
              rfl
          · rw [if_neg hlen]
            cases hfl : s.flippedCardIds with
            | nil =>
              rw [if_pos (by simp)]
              constructor
              · simp [h1, hfc, hm]
              · intro h
                exact absurd rfl h
            | cons f rest =>
              cases rest with
              | cons g t =>
                exfalso
                rw [hfl] at hlen
                simp at hlen
              | nil =>
                rw [hfl] at hmem
                simp only [List.cons_append, List.nil_append]
                rw [if_neg (by simp)]
                simp only [List.getD, List.get?, Option.getD_some]
                cases hff : s.cards.find? (fun card => card.id == f) with
                | none =>
                  simp only [hff, hfc]
                  constructor
                  · constructor
                    · intro _
                      exact Or.inr (Or.inr (Or.inr (Or.inr (Or.inr
                        ⟨f, rfl, hff⟩))))
                    · intro _
                      simp
                  · intro _
                    simp
                | some fc =>
                  simp only [hff, hfc]
                  by_cases hv : fc.value = cc.value
                  · rw [if_pos hv]
                    constructor
                    · simp [h1, hfc, hm, hmem, hff]
                      constructor
                      · simpa using hmem
                      · exact ⟨fc, List.mem_of_find?_eq_some hff,
                          by simpa using List.find?_some hff⟩
                    · intro h
                      exact absurd rfl h
                  · rw [if_neg hv]
                    constructor
                    · simp [h1, hfc, hm, hmem, hff]
                      constructor
                      · simpa using hmem
                      · exact ⟨fc, List.mem_of_find?_eq_some hff,
                          by simpa using List.find?_some hff⟩
                    · intro h
                      exact absurd rfl h

theorem c3_rejections_witness :
    (applyMoveE { sTwo with status := "won" } "c1" 800).error ≠ none ∧
    ((applyMoveE { sTwo with status := "won" } "c1" 800).gameState = none ∨
     (applyMoveE { sTwo with status := "won" } "c1" 800).gameState =
       some { { sTwo with status := "won" } with flippedCardIds := [] }) :=
  ⟨(c3_rejections_amended { sTwo with status := "won" } "c1" 800).1.mpr
     (Or.inl (by decide)),
   (c3_rejections_amended { sTwo with status := "won" } "c1" 800).2
     ((c3_rejections_amended { sTwo with status := "won" } "c1" 800).1.mpr
       (Or.inl (by decide)))⟩

theorem inv_unlockBoardAfterNoMatch (s : GameState)
    (hInv : SessionInvariant s) :
    SessionInvariant (unlockBoardAfterNoMatch s) := by
  obtain ⟨_, _, _, hwon, _⟩ := hInv
  exact ⟨by simp [unlockBoardAfterNoMatch], by simp [unlockBoardAfterNoMatch],
    by simp [unlockBoardAfterNoMatch], hwon, by simp [unlockBoardAfterNoMatch]⟩

theorem inv_unlockBoard (s : GameState) (hInv : SessionInvariant s) :
    SessionInvariant (unlockBoard s) := by
  obtain ⟨_, _, _, hwon, _⟩ := hInv
  exact ⟨by simp [unlockBoard], by simp [unlockBoard],
    by simp [unlockBoard], hwon, by simp [unlockBoard]⟩

theorem inv_createGameState (ids : Nat → String) (rand : Nat → Nat)
    (playerCount : Nat) (gs : GameState)
    (h : createGameState ids rand playerCount = Except.ok gs) :
    SessionInvariant gs := by
  by_cases hpc : playerCount < 1 ∨ 4 < playerCount
  · rw [createGameState, if_pos hpc] at h
    cases h
  · rw [createGameState, if_neg hpc] at h
    injection h with h
    subst h
    refine ⟨by simp, by simp, by simp, ?_, by simp⟩
    dsimp only
    constructor
    · intro hw
      exact absurd hw (by decide)
    · intro hall
      exfalso
      have hmem0 : (⟨ids playerCount, "A", false⟩ : Card) ∈
          buildCards ids playerCount cardValues := by
        rw [cardValues, buildCards]
        exact List.mem_cons_self _ _
      have hmem1 := (shuffle_perm rand
        (buildCards ids playerCount cardValues)).symm.subset hmem0
      have := hall _ hmem1
      simp at this

theorem matchStatus_iff (cards' : List Card) :
    ((if cards'.all (fun card => card.isMatched) then "won" else "playing") =
        "won" ↔
      ∀ card ∈ cards', card.isMatched = true) := by
  rcases Bool.eq_false_or_eq_true
      (cards'.all (fun card => card.isMatched)) with hb | hb
  · rw [if_pos hb]
    constructor
    · intro _
      exact List.all_eq_true.mp hb
    · intro _
      rfl
  · rw [if_neg (by rw [hb]; decide)]
    constructor
    · intro hcon
      exact absurd hcon (by decide)
    · intro hall
      exact absurd (List.all_eq_true.mpr hall) (by rw [hb]; decide)

theorem inv_applyMove (s : GameState) (c : String) (d : Nat)
    (s' : GameState) (hInv : SessionInvariant s)
    (hstep : (applyMove s c d).gameState = some s') :
    SessionInvariant s' := by
  obtain ⟨hlen2, hnodup, hrefs, hwon, hlock⟩ := hInv
  by_cases h1 : s.status = "playing"
  swap
  · rw [applyMove, if_pos (by simpa using h1)] at hstep
    cases hstep
    exact ⟨hlen2, hnodup, hrefs, hwon, hlock⟩
  · by_cases h2 : s.lockBoard = true
    · rw [applyMove, if_neg (by simp [h1]), if_pos h2] at hstep
      cases hstep
      exact ⟨hlen2, hnodup, hrefs, hwon, hlock⟩
    · have h2' : s.lockBoard = false := by simpa using h2
      rw [applyMove, if_neg (by simp [h1]), if_neg h2] at hstep
      cases hfc : s.cards.find? (fun card => card.id == c) with
      | none =>
        rw [hfc] at hstep
        cases hstep
        exact ⟨hlen2, hnodup, hrefs, hwon, hlock⟩
      | some cc =>
        rw [hfc] at hstep
        dsimp only at hstep
        by_cases hm : cc.isMatched = true
        · rw [if_pos hm] at hstep
          cases hstep
          exact ⟨hlen2, hnodup, hrefs, hwon, hlock⟩
        · rw [if_neg hm] at hstep
          by_cases hmem : c ∈ s.flippedCardIds
          · rw [if_pos (by simpa using hmem)] at hstep
            cases hstep
            exact ⟨hlen2, hnodup, hrefs, hwon, hlock⟩
          · rw [if_neg (by simpa using hmem)] at hstep
            by_cases hlen : 2 ≤ s.flippedCardIds.length
            · rw [if_pos hlen] at hstep
              cases hstep
              exact ⟨hlen2, hnodup, hrefs, hwon, hlock⟩
            · rw [if_neg hlen] at hstep
              cases hfl : s.flippedCardIds with
              | nil =>
                rw [hfl] at hstep
                rw [if_pos (by simp)] at hstep
                cases hstep
                refine ⟨by simp, by simp, ?_, hwon, by simp [h2']⟩
                intro cid hcid
                simp at hcid
                subst hcid
                refine ⟨cc, List.mem_of_find?_eq_some hfc, ?_, ?_⟩
                · simpa using List.find?_some hfc
                · simpa using hm
              | cons f rest =>
                cases rest with
                | cons g t =>
                  exfalso
                  rw [hfl] at hlen
                  simp at hlen
                | nil =>
                  rw [hfl] at hstep hrefs hmem
                  simp only [List.cons_append, List.nil_append] at hstep
                  rw [if_neg (by simp)] at hstep
                  simp only [List.getD, List.get?, Option.getD_some]
                    at hstep
                  cases hff : s.cards.find?
                      (fun card => card.id == f) with
                  | none =>
                    rw [hff, hfc] at hstep
                    dsimp only at hstep
                    cases hstep
                    exact ⟨by simp, by simp, by simp, hwon,
                      by simp [h2']⟩
                  | some fc =>
                    rw [hff, hfc] at hstep
                    dsimp only at hstep
                    by_cases hv : fc.value = cc.value
                    · rw [if_pos hv] at hstep
                      cases hstep
                      refine ⟨by simp, by simp, by simp, ?_, by simp⟩
                      dsimp only
                      exact matchStatus_iff _
                    · rw [if_neg hv] at hstep
                      cases hstep
                      have hnefc : ¬c = f := by simpa using hmem
                      refine ⟨by simp, ?_, ?_, hwon, ?_⟩
                      · simp
                        exact fun h => hnefc h.symm
                      · intro cid hcid
                        simp at hcid
                        rcases hcid with rfl | rfl
                        · exact hrefs cid (List.mem_cons_self _ _)
                        · refine ⟨cc, List.mem_of_find?_eq_some hfc,
                            ?_, ?_⟩
                          · simpa using List.find?_some hfc
                          · simpa using hm
                      · intro _
                        refine ⟨f, c, fc, cc, rfl,
                          List.mem_of_find?_eq_some hff, ?_,
                          List.mem_of_find?_eq_some hfc, ?_, hv⟩
                        · simpa using List.find?_some hff
                        · simpa using List.find?_some hfc

theorem inv_applyMoveE (s : GameState) (c : String) (d : Nat)
    (s' : GameState) (hInv : SessionInvariant s)
    (hstep : (applyMoveE s c d).gameState = some s') :
    SessionInvariant s' := by
  obtain ⟨hlen2, hnodup, hrefs, hwon, hlock⟩ := hInv
  by_cases h1 : s.status = "playing"
  swap
  · rw [applyMoveE, if_pos (by simpa using h1)] at hstep
    cases hstep
  · rw [applyMoveE, if_neg (by simp [h1])] at hstep
    cases hfc : s.cards.find? (fun card => card.id == c) with
    | none =>
      rw [hfc] at hstep
      cases hstep
    | some cc =>
      rw [hfc] at hstep
      dsimp only at hstep
      by_cases hm : cc.isMatched = true
      · rw [if_pos hm] at hstep
        cases hstep
      · rw [if_neg hm] at hstep
        by_cases hmem : c ∈ s.flippedCardIds
        · rw [if_pos (by simpa using hmem)] at hstep
          cases hstep
        · rw [if_neg (by simpa using hmem)] at hstep
          by_cases hlen : 2 ≤ s.flippedCardIds.length
          · rw [if_pos hlen] at hstep
            cases hstep
          · rw [if_neg hlen] at hstep
            cases hfl : s.flippedCardIds with
            | nil =>
              rw [hfl] at hstep
              rw [if_pos (by simp)] at hstep
              cases hstep
              refine ⟨by simp, by simp, ?_, hwon, ?_⟩
              · intro cid hcid
                simp at hcid
                subst hcid
                refine ⟨cc, List.mem_of_find?_eq_some hfc, ?_, ?_⟩
                · simpa using List.find?_some hfc
                · simpa using hm
              · intro hl
                exfalso
                have := hlock hl
                rw [hfl] at this
                obtain ⟨a, b, _, _, habs, _⟩ := this
                cases habs
            | cons f rest =>
              cases rest with
              | cons g t =>
                exfalso
                rw [hfl] at hlen
                simp at hlen
              | nil =>
                rw [hfl] at hstep hrefs hmem
                simp only [List.cons_append, List.nil_append] at hstep
                rw [if_neg (by simp)] at hstep
                simp only [List.getD, List.get?, Option.getD_some]
                  at hstep
                cases hff : s.cards.find?
                    (fun card => card.id == f) with
                | none =>
                  exfalso
                  obtain ⟨card, hcard, hid, _⟩ :=
                    hrefs f (List.mem_cons_self _ _)
                  have := List.find?_eq_none.mp hff card hcard
                  simp [hid] at this
                | some fc =>
                  rw [hff, hfc] at hstep
                  dsimp only at hstep
                  by_cases hv : fc.value = cc.value
                  · rw [if_pos hv] at hstep
                    cases hstep
                    refine ⟨by simp, by simp, by simp, ?_, by simp⟩
                    dsimp only
                    exact matchStatus_iff _
                  · rw [if_neg hv] at hstep
                    cases hstep
                    have hnefc : ¬c = f := by simpa using hmem
                    refine ⟨by simp, ?_, ?_, hwon, ?_⟩
                    · simp
                      exact fun h => hnefc h.symm
                    · intro cid hcid
                      simp at hcid
                      rcases hcid with rfl | rfl
                      · exact hrefs cid (List.mem_cons_self _ _)
                      · refine ⟨cc, List.mem_of_find?_eq_some hfc,
                          ?_, ?_⟩
                        · simpa using List.find?_some hfc
                        · simpa using hm
                    · intro _
                      refine ⟨f, c, fc, cc, rfl,
                        List.mem_of_find?_eq_some hff, ?_,
                        List.mem_of_find?_eq_some hfc, ?_, hv⟩
                      · simpa using List.find?_some hff
                      · simpa using List.find?_some hfc

/-- C5: every session reachable from a freshly created one through any
sequence of move and unlock transitions (either source variant) keeps
the invariants: at most two flipped ids, no duplicates, each
referencing an existing unmatched card; status is "won" exactly when
all cards are matched; and the board is locked only behind a
mismatched visible pair. -/
theorem c5_reachable_invariant (s : GameState) (h : Reachable s) :
    SessionInvariant s := by
  induction h with
  | init ids rand playerCount gs hgs =>
    exact inv_createGameState ids rand playerCount gs hgs
  | move t cardId delay gs _ hstep ih =>
    exact inv_applyMove t cardId delay gs ih hstep
  | moveE t cardId delay gs _ hstep ih =>
    exact inv_applyMoveE t cardId delay gs ih hstep
  | unlock t _ ih => exact inv_unlockBoardAfterNoMatch t ih
  | unlockE t _ ih => exact inv_unlockBoard t ih

theorem c5_reachable_witness : SessionInvariant initState1 :=
  c5_reachable_invariant initState1
    (Reachable.init ids0 rand0 1 initState1 rfl)
